import Mathlib

/-!
# Verification of the currency/crypto converter (src/script.js)

Shallow embedding of the core logic of the `CurrencyConverter` class:
catalog construction, autocomplete grouping, rate resolution, conversion,
and historical chart-series construction.

Modeling conventions:
* JS numbers are rationals `ℚ`; a JS value that is not a finite number
  (`undefined`, `NaN`, `Infinity`) is modeled as `none : Option ℚ`.
* A `fetch` that rejects (network failure) or whose body fails to parse is
  modeled as the environment returning `none`; a parsed response carries its
  `ok` flag and the parsed body.
* Thrown-and-caught JS exceptions are `Except.error ()`.
* Locale date-label strings are modeled by the integer day (or timestamp)
  they are rendered from.
-/

namespace Conversor

/-! ## JS primitives -/

/-- JS division `a / b`: a zero divisor yields a non-finite value
(`Infinity` or `NaN`), modeled as `none`. -/
def jsDiv (a b : ℚ) : Option ℚ := if b = 0 then none else some (a / b)

/-- JS `String.prototype.toUpperCase`, per-character on basic latin
(the only case relevant to currency codes and ticker symbols). -/
def jsToUpperCase (s : String) : String := ⟨s.data.map Char.toUpper⟩

/-- JS `String.prototype.toLowerCase`, per-character on basic latin. -/
def jsToLowerCase (s : String) : String := ⟨s.data.map Char.toLower⟩

/-- Boolean contiguous-sublist test used to model `String.prototype.includes`. -/
def listContainsSeq (needle : List Char) : List Char → Bool
  | [] => needle.isEmpty
  | c :: rest => needle.isPrefixOf (c :: rest) || listContainsSeq needle rest

/-- JS `haystack.includes(needle)`. -/
def jsIncludes (haystack needle : String) : Bool :=
  listContainsSeq needle.data haystack.data

/-! ## Network environment

The two REST providers, as the functions from request to (optional) parsed
response.  `none` models a rejected fetch / unparseable body. -/

/-- Parsed body and status of `GET exchangeRateAPI/<code>`:
`{ rates: { [code]: number } }`. -/
structure FiatResp where
  ok : Bool
  rates : List (String × ℚ)
deriving DecidableEq

/-- Parsed body and status of `GET coinGeckoAPI?ids=...&vs_currencies=usd`:
`{ [id]: { usd: number } }`; an id absent from the list models an id the
provider did not echo back. -/
structure PriceResp where
  ok : Bool
  prices : List (String × ℚ)
deriving DecidableEq

/-- One element of the `coins/markets` ranking response. -/
structure CoinMarket where
  id : String
  symbol : String
  name : String
deriving DecidableEq

/-- Parsed body and status of the `coins/markets` top-100 request. -/
structure MarketsResp where
  ok : Bool
  coins : List CoinMarket
deriving DecidableEq

/-- Parsed body and status of `coins/<id>/market_chart?...&days=30&interval=daily`:
`{ prices: [[timestampMs, price], ...] }`; `prices := none` models a body whose
`prices` field is missing or not an array. -/
structure ChartResp where
  ok : Bool
  prices : Option (List (Int × ℚ))
deriving DecidableEq

/-- The network, keyed the way the code builds its URLs. -/
structure Env where
  /-- `GET <exchangeRateAPI><quoteCode>` -/
  fiatResp : String → Option FiatResp
  /-- `GET <coinGeckoAPI>?ids=<id1,...>&vs_currencies=usd` -/
  priceResp : List String → Option PriceResp
  /-- `GET .../coins/markets?vs_currency=usd&order=market_cap_desc&per_page=100&page=1` -/
  marketsResp : Option MarketsResp
  /-- `GET .../coins/<id>/market_chart?vs_currency=usd&days=30&interval=daily` -/
  chartResp : String → Option ChartResp

/-! ## Data model -/

/-- A catalog entry `{code, name, type, id?}` as built by the loaders. -/
structure Currency where
  code : String
  name : String
  type : String
  id : Option String := none
deriving DecidableEq

/-- The per-input selection state stored in `dataset.selectedCode`,
`dataset.selectedType` and `dataset.selectedId`. -/
structure Selection where
  selectedCode : String
  selectedType : String
  selectedId : Option String := none
deriving DecidableEq

/-- `getCryptoId` (script.js 1299-1301): `this.cryptoIdMap.get(code.toUpperCase())`.
The map may store an `undefined` id (modeled by a `none` value), and `get` on a
missing key is also `undefined`; `Option.join` collapses the two. -/
def getCryptoId (cryptoIdMap : List (String × Option String)) (currencyCode : String) :
    Option String :=
  (cryptoIdMap.lookup (jsToUpperCase currencyCode)).join

/-! ## Rate resolver (script.js 672-772) -/

/-- `getFiatToFiatExchangeRate` (script.js 672-681): fetch the table quoted
against `fromCurrency`; throw on rejection or non-2xx; otherwise return
`data.rates[toCurrency]`, which is `undefined` (here `none`) when the key is
missing — the source does not check for that. -/
def getFiatToFiatExchangeRate (env : Env) (fromCurrency toCurrency : String) :
    Except Unit (Option ℚ) :=
  match env.fiatResp fromCurrency with
  | none => .error ()
  | some data =>
    if !data.ok then .error ()
    else .ok (data.rates.lookup toCurrency)

/-- `getCryptoToCryptoExchangeRate` (script.js 689-711): one batched price
request for both ids; throw on rejection or non-2xx; `data[id].usd` throws a
`TypeError` when the id key is missing; otherwise the rate is
`fromPriceInUsd / toPriceInUsd`.  An unresolved id interpolates as the literal
string `"undefined"` in the URL. -/
def getCryptoToCryptoExchangeRate (env : Env) (fromCryptoId toCryptoId : Option String) :
    Except Unit (Option ℚ) :=
  let fromKey := fromCryptoId.getD "undefined"
  let toKey := toCryptoId.getD "undefined"
  match env.priceResp [fromKey, toKey] with
  | none => .error ()
  | some data =>
    if !data.ok then .error ()
    else
      match data.prices.lookup fromKey, data.prices.lookup toKey with
      | some fromPriceInUsd, some toPriceInUsd => .ok (jsDiv fromPriceInUsd toPriceInUsd)
      | _, _ => .error ()

/-- `getFiatToCryptoExchangeRate` (script.js 719-742): fetch the crypto USD
price (the source performs no `response.ok` check on either request here).
If `fromFiat === "USD"` the rate is `1 / price`.  Otherwise fetch the table
quoted against `fromFiat`; `cryptoData[cryptoId].usd` (read at line 731
resp. 739) throws when the id key is missing, while a missing `rates.USD`
key leaves `usdExchangeRate` `undefined` and the returned rate is
`undefined / price = NaN` (here `none`) without any error. -/
def getFiatToCryptoExchangeRate (env : Env) (fromFiat : String) (cryptoId : Option String) :
    Except Unit (Option ℚ) :=
  let key := cryptoId.getD "undefined"
  match env.priceResp [key] with
  | none => .error ()
  | some cryptoData =>
    if fromFiat == "USD" then
      match cryptoData.prices.lookup key with
      | none => .error ()
      | some price => .ok (jsDiv 1 price)
    else
      match env.fiatResp fromFiat with
      | none => .error ()
      | some fiatData =>
        match cryptoData.prices.lookup key with
        | none => .error ()
        | some price =>
          match fiatData.rates.lookup "USD" with
          | none => .ok none
          | some usdExchangeRate => .ok (jsDiv usdExchangeRate price)

/-- `getCryptoToFiatExchangeRate` (script.js 750-772): fetch the crypto USD
price (no `response.ok` check); `cryptoData[cryptoId].usd` (line 761) throws
when the id key is missing.  If `toFiat === "USD"` the rate is the price
itself; otherwise fetch the USD-quoted table and the rate is
`price * fiatData.rates[toFiat]`, which is `NaN` (here `none`) when that key
is missing. -/
def getCryptoToFiatExchangeRate (env : Env) (cryptoId : Option String) (toFiat : String) :
    Except Unit (Option ℚ) :=
  let key := cryptoId.getD "undefined"
  match env.priceResp [key] with
  | none => .error ()
  | some cryptoData =>
    match cryptoData.prices.lookup key with
    | none => .error ()
    | some cryptoPriceInUsd =>
      if toFiat == "USD" then .ok (some cryptoPriceInUsd)
      else
        match env.fiatResp "USD" with
        | none => .error ()
        | some fiatData =>
          match fiatData.rates.lookup toFiat with
          | none => .ok none
          | some r => .ok (some (cryptoPriceInUsd * r))

/-! ## Conversion entry point (script.js 589-664) -/

/-- Observable outcome of one `convertCurrency` run. -/
inductive ConvOutcome where
  /-- `showError("Por favor selecciona ambas monedas de la lista")` -/
  | missingSelection
  /-- `showError("Por favor ingresa un monto válido")` -/
  | invalidAmount
  /-- `showError("⚠️ No puedes convertir una moneda a sí misma...")` -/
  | sameCurrency
  /-- caught exception: `showError("Error al obtener la cotización. Intenta nuevamente.")` -/
  | quoteError
  /-- `displayConversionResult(amount, from, amount * rate, to, rate)` -/
  | success (amountIn : ℚ) (fromCode toCode : String)
      (convertedAmount : Option ℚ) (rate : Option ℚ)
deriving DecidableEq

/-- `convertCurrency` (script.js 589-664).  `amount` is the `parseFloat` of
the amount field, with `none` for `NaN`; the guard `!amount || amount <= 0`
rejects `NaN`, `0` and negatives alike.  The id arguments of the crypto
getters are `dataset.selectedId || this.getCryptoId(code)`, resolved here
exactly as the getters read them from the DOM. -/
def convertCurrency (env : Env) (cryptoIdMap : List (String × Option String))
    (fromSel toSel : Option Selection) (amount : Option ℚ) : ConvOutcome :=
  match fromSel, toSel with
  | some fromC, some toC =>
    if fromC.selectedCode == "" || toC.selectedCode == "" then .missingSelection
    else
      match amount with
      | none => .invalidAmount
      | some a =>
        if a ≤ 0 then .invalidAmount
        else if fromC.selectedCode == toC.selectedCode then .sameCurrency
        else
          let fromId := fromC.selectedId.orElse fun _ =>
            getCryptoId cryptoIdMap fromC.selectedCode
          let toId := toC.selectedId.orElse fun _ =>
            getCryptoId cryptoIdMap toC.selectedCode
          let rateRes :=
            if fromC.selectedType == "fiat" && toC.selectedType == "fiat" then
              getFiatToFiatExchangeRate env fromC.selectedCode toC.selectedCode
            else if fromC.selectedType == "crypto" && toC.selectedType == "crypto" then
              getCryptoToCryptoExchangeRate env fromId toId
            else if fromC.selectedType == "fiat" && toC.selectedType == "crypto" then
              getFiatToCryptoExchangeRate env fromC.selectedCode toId
            else
              getCryptoToFiatExchangeRate env fromId toC.selectedCode
          match rateRes with
          | .error _ => .quoteError
          | .ok rate =>
            .success a fromC.selectedCode toC.selectedCode (rate.map (a * ·)) rate
  | _, _ => .missingSelection

/-- Final `disabled` state of the convert button once the outcome is surfaced:
every terminal path runs either `showError` (script.js 921-922) or
`displayConversionResult` (script.js 850), both of which set
`convertBtn.disabled = false`. -/
def submitEnabledAfter : ConvOutcome → Bool
  | .missingSelection => true
  | .invalidAmount => true
  | .sameCurrency => true
  | .quoteError => true
  | .success _ _ _ _ _ => true

/-! ## Catalog builder (script.js 173-281) -/

/-- Hardcoded fiat fallback returned by the `catch` of `loadFiatCurrencies`
(script.js 236-243). -/
def fallbackFiatCurrencies : List Currency :=
  [{ code := "USD", name := "Dólar Estadounidense", type := "fiat" },
   { code := "EUR", name := "Euro", type := "fiat" },
   { code := "GBP", name := "Libra Esterlina", type := "fiat" },
   { code := "JPY", name := "Yen Japonés", type := "fiat" },
   { code := "ARS", name := "Peso Argentino", type := "fiat" },
   { code := "BRL", name := "Real Brasileño", type := "fiat" }]

/-- `loadFiatCurrencies` (script.js 209-245): every key of the USD-quoted
rate table becomes a fiat entry (name from the static name table, falling
back to the code); `USD` itself is unshifted explicitly; the list is sorted
by code (`localeCompare` modeled by the string order); network failure or a
non-2xx status yields the hardcoded six-entry fallback. -/
def loadFiatCurrencies (env : Env) (currencyNames : List (String × String)) :
    List Currency :=
  match env.fiatResp "USD" with
  | none => fallbackFiatCurrencies
  | some data =>
    if !data.ok then fallbackFiatCurrencies
    else
      let fiatCurrencies : List Currency := data.rates.map fun kv =>
        { code := kv.1, name := (currencyNames.lookup kv.1).getD kv.1, type := "fiat" }
      let withUsd : List Currency :=
        { code := "USD",
          name := (currencyNames.lookup "USD").getD "Dólar Estadounidense",
          type := "fiat" } :: fiatCurrencies
      withUsd.mergeSort fun a b => decide (a.code ≤ b.code)

/-- `loadCryptoCurrencies` (script.js 247-281): on success each ranked coin
becomes a crypto entry with `code = symbol.toUpperCase()` and the pair
`(code, id)` is recorded in the `cryptoIdMap`; on failure the bundled
fallback list is returned and the map is populated from it.  (The JS `Map`
keeps the last id written for a duplicated code; the association list keeps
the first — identical whenever the codes are duplicate-free.) -/
def loadCryptoCurrencies (env : Env) (fallbackCryptos : List Currency) :
    List Currency × List (String × Option String) :=
  match env.marketsResp with
  | none => (fallbackCryptos, fallbackCryptos.map fun c => (c.code, c.id))
  | some data =>
    if !data.ok then (fallbackCryptos, fallbackCryptos.map fun c => (c.code, c.id))
    else
      (data.coins.map fun coin =>
        { code := jsToUpperCase coin.symbol, name := coin.name, type := "crypto",
          id := some coin.id },
       data.coins.map fun coin => (jsToUpperCase coin.symbol, some coin.id))

/-- `loadCurrencies` (script.js 173-207): the unified catalog is the fiat leg
followed by the crypto leg, together with the crypto id index built as a
side effect. -/
def loadCurrencies (env : Env) (currencyNames : List (String × String))
    (fallbackCryptos : List Currency) :
    List Currency × List (String × Option String) :=
  let fiat := loadFiatCurrencies env currencyNames
  let crypto := loadCryptoCurrencies env fallbackCryptos
  (fiat ++ crypto.1, crypto.2)

/-! ## Autocomplete (script.js 410-530) -/

/-- The filter predicate of `showAutocompleteResults` (script.js 428-432):
case-insensitive substring match against code and name. -/
def matchesQuery (query : String) (currency : Currency) : Bool :=
  jsIncludes (jsToLowerCase currency.code) (jsToLowerCase query) ||
  jsIncludes (jsToLowerCase currency.name) (jsToLowerCase query)

/-- What the dropdown ends up showing (headers excluded). -/
inductive AutocompleteRender where
  /-- the list is hidden (`classList.remove("show")`) -/
  | hidden
  /-- a single "No se encontraron monedas..." marker -/
  | noResults
  /-- the fiat group followed by the crypto group -/
  | groups (fiatShown cryptoShown : List Currency)
deriving DecidableEq

/-- `renderCurrencyGroups` (script.js 487-530): the fiat matches are rendered
first, capped at `Math.min(length, maxTotal - totalShown, 15)` with
`totalShown = 0`; then the crypto matches, capped at the remaining budget
`maxTotal - totalShown`. -/
def renderCurrencyGroups (currencies : List Currency) : List Currency × List Currency :=
  let fiatCurrencies := currencies.filter fun c => c.type == "fiat"
  let cryptoCurrencies := currencies.filter fun c => c.type == "crypto"
  let maxTotal := 30
  let fiatShown :=
    if fiatCurrencies.length > 0 then
      fiatCurrencies.take (min (min fiatCurrencies.length maxTotal) 15)
    else []
  let totalShown := fiatShown.length
  let cryptoShown :=
    if cryptoCurrencies.length > 0 && totalShown < maxTotal then
      cryptoCurrencies.take (min cryptoCurrencies.length (maxTotal - totalShown))
    else []
  (fiatShown, cryptoShown)

/-- `showAutocompleteResults` (script.js 410-452): empty query or empty
catalog hides the list; a query with matches renders the capped groups; a
query of length ≥ 2 with no matches renders the no-results marker; a
single-character query with no matches hides the list. -/
def showAutocompleteResults (allCurrencies : List Currency) (query : String) :
    AutocompleteRender :=
  if query.length == 0 then .hidden
  else if allCurrencies.length == 0 then .hidden
  else if query.length ≥ 1 then
    let filtered := allCurrencies.filter (matchesQuery query)
    if filtered.length > 0 then
      let groups := renderCurrencyGroups filtered
      .groups groups.1 groups.2
    else if query.length ≥ 2 then .noResults
    else .hidden
  else .hidden

/-! ## Historical series builder (script.js 964-1141) -/

/-- The `{labels, data}` object handed to the chart.  Labels are the integer
days/timestamps the locale date strings are rendered from; data values are
JS numbers (`none` = non-finite). -/
structure ChartData where
  labels : List Int
  data : List (Option ℚ)
deriving DecidableEq

set_option linter.unusedVariables false in
/-- `getCryptocurrencyHistoricalData` (script.js 1027-1083): resolve the
CoinGecko id (throw when unknown), fetch the 30-day daily USD series (throw
on rejection, non-2xx, or a missing/non-array `prices` field), invert every
price when `isInverse`, and label each point by its date.  Every caught
error is re-thrown (line 1081).  `targetCurrency` is accepted but unused,
as in the source. -/
def getCryptocurrencyHistoricalData (env : Env)
    (cryptoIdMap : List (String × Option String))
    (cryptoCurrency targetCurrency : String) (isInverse : Bool := false) :
    Except Unit ChartData :=
  match getCryptoId cryptoIdMap cryptoCurrency with
  | none => .error ()
  | some cryptoId =>
    match env.chartResp cryptoId with
    | none => .error ()
    | some resp =>
      if !resp.ok then .error ()
      else
        match resp.prices with
        | none => .error ()
        | some priceData =>
          let processedPrices : List (Int × Option ℚ) :=
            if isInverse then priceData.map fun p => (p.1, jsDiv 1 p.2)
            else priceData.map fun p => (p.1, some p.2)
          .ok { labels := processedPrices.map Prod.fst,
                data := processedPrices.map Prod.snd }

/-- `generateFallbackChartData` (script.js 1127-1141): 30 labels for the days
`today-29 .. today` and values `1 + (Math.random() - 0.5) * 0.02`;
`rand k` is the `k`-th `Math.random()` draw of the loop. -/
def generateFallbackChartData (rand : Nat → ℚ) (today : Int) : ChartData :=
  { labels := (List.range 30).map fun i : ℕ => today - 29 + (i : ℤ),
    data := (List.range 30).map fun i => some (1 + (rand i - 1/2) * (2/100)) }

/-- `getFiatCurrencyHistoricalData` (script.js 1091-1121): take the live
Fiat→Fiat rate as baseline and emit 30 points `rate * (1 + variation)` with
`variation = (Math.random() - 0.5) * 0.04`, oldest to newest; when the
baseline fetch throws, return `generateFallbackChartData` instead.  When the
baseline rate is `undefined` (missing key, no throw) every value is `NaN`. -/
def getFiatCurrencyHistoricalData (env : Env) (rand : Nat → ℚ) (today : Int)
    (fromCurrency toCurrency : String) : ChartData :=
  match getFiatToFiatExchangeRate env fromCurrency toCurrency with
  | .error _ => generateFallbackChartData rand today
  | .ok currentExchangeRate =>
    { labels := (List.range 30).map fun i : ℕ => today - 29 + (i : ℤ),
      data := (List.range 30).map fun i =>
        currentExchangeRate.map fun r => r * (1 + (rand i - 1/2) * (4/100)) }

/-- What the chart region ends up showing. -/
inductive ChartOutcome where
  /-- `createPriceChart(canvas, historicalData, chartTitle)` -/
  | chart (title : String) (d : ChartData)
  /-- `showChartError("No se pudieron cargar los datos históricos")` -/
  | chartError
deriving DecidableEq

/-- `displayPriceChart` (script.js 964-1018): source crypto → fetch its series
uninverted; else target crypto → fetch the target's series inverted; else the
simulated fiat series.  A thrown error is caught and surfaces as the inline
chart error marker. -/
def displayPriceChart (env : Env) (cryptoIdMap : List (String × Option String))
    (rand : Nat → ℚ) (today : Int)
    (fromCurrency toCurrency fromType toType : String) : ChartOutcome :=
  let res : Except Unit ChartData :=
    if fromType == "crypto" then
      getCryptocurrencyHistoricalData env cryptoIdMap fromCurrency toCurrency
    else if toType == "crypto" then
      getCryptocurrencyHistoricalData env cryptoIdMap toCurrency fromCurrency true
    else
      .ok (getFiatCurrencyHistoricalData env rand today fromCurrency toCurrency)
  match res with
  | .ok d => .chart (fromCurrency ++ " → " ++ toCurrency) d
  | .error _ => .chartError

/-! # Theorems -/

/-! ## C1: Fiat→Fiat conversion -/

/-- C1.  For every Fiat→Fiat conversion, the resolver fetches the rate table
quoted against `from.code` and returns `rate = table[to.code]`, and the
displayed converted amount equals `amount_in * rate`. -/
theorem fiatToFiat_conversion_uses_table_rate
    (env : Env) (cryptoIdMap : List (String × Option String))
    (fromC toC : Selection) (a r : ℚ) (resp : FiatResp)
    (hft : fromC.selectedType = "fiat") (htt : toC.selectedType = "fiat")
    (hfc : fromC.selectedCode ≠ "") (htc : toC.selectedCode ≠ "")
    (hne : fromC.selectedCode ≠ toC.selectedCode) (ha : 0 < a)
    (hresp : env.fiatResp fromC.selectedCode = some resp) (hok : resp.ok = true)
    (hr : resp.rates.lookup toC.selectedCode = some r) :
    convertCurrency env cryptoIdMap (some fromC) (some toC) (some a) =
      .success a fromC.selectedCode toC.selectedCode (some (a * r)) (some r) := by
  simp [convertCurrency, getFiatToFiatExchangeRate, hft, htt, hfc, htc, hne, hresp,
    hok, hr, ha.not_le]

/-- Network environment for the C1 end-to-end scenario: a mocked USD-quoted
rate table containing `EUR ↦ 0.9`. -/
def envC1 : Env where
  fiatResp := fun q => if q == "USD" then some ⟨true, [("EUR", 9/10)]⟩ else none
  priceResp := fun _ => none
  marketsResp := none
  chartResp := fun _ => none

/-- C1 witness: USD (Fiat) → EUR (Fiat), amount 100, rate table `EUR ↦ 0.9`
gives `amount_out = 90` and `rate = 0.9`. -/
theorem fiatToFiat_conversion_uses_table_rate_witness :
    convertCurrency envC1 [] (some ⟨"USD", "fiat", none⟩) (some ⟨"EUR", "fiat", none⟩)
      (some 100) =
      .success 100 "USD" "EUR" (some 90) (some (9/10)) := by
  have h := fiatToFiat_conversion_uses_table_rate envC1 []
    ⟨"USD", "fiat", none⟩ ⟨"EUR", "fiat", none⟩ 100 (9/10)
    ⟨true, [("EUR", 9/10)]⟩ rfl rfl (by decide) (by decide) (by decide)
    (by norm_num) rfl rfl rfl
  rw [h]
  norm_num

/-! ## C2: mixed-kind pairs resolve through USD -/

/-- C2.  Fiat→Crypto returns `1/price` when the source fiat is USD and
`usdRate/price` otherwise (with `usdRate` the USD entry of the table quoted
against `from.code`); Crypto→Fiat returns `price` when the target is USD and
`price * table[to.code]` from the USD-quoted table otherwise. -/
theorem mixedKind_rates_route_through_usd
    (env : Env) (cid : String) (p : ℚ) (presp : PriceResp)
    (fromFiat toFiat : String) (frespF frespU : FiatResp) (u tr : ℚ)
    (hp : env.priceResp [cid] = some presp)
    (hkey : presp.prices.lookup cid = some p) (hp0 : p ≠ 0)
    (hfrom : fromFiat ≠ "USD") (hto : toFiat ≠ "USD")
    (hfF : env.fiatResp fromFiat = some frespF)
    (hu : frespF.rates.lookup "USD" = some u)
    (hfU : env.fiatResp "USD" = some frespU)
    (htr : frespU.rates.lookup toFiat = some tr) :
    getFiatToCryptoExchangeRate env "USD" (some cid) = .ok (some (1 / p)) ∧
    getFiatToCryptoExchangeRate env fromFiat (some cid) = .ok (some (u / p)) ∧
    getCryptoToFiatExchangeRate env (some cid) "USD" = .ok (some p) ∧
    getCryptoToFiatExchangeRate env (some cid) toFiat = .ok (some (p * tr)) := by
  refine ⟨?_, ?_, ?_, ?_⟩ <;>
    simp [getFiatToCryptoExchangeRate, getCryptoToFiatExchangeRate, jsDiv,
      hp, hkey, hp0, hfrom, hto, hfF, hu, hfU, htr]

/-- Network environment for the C2 witness: BTC priced at 60000 USD, a
EUR-quoted table with `USD ↦ 10/9`, and a USD-quoted table with
`EUR ↦ 9/10`. -/
def envC2 : Env where
  fiatResp := fun q =>
    if q == "USD" then some ⟨true, [("EUR", 9/10)]⟩
    else if q == "EUR" then some ⟨true, [("USD", 10/9)]⟩
    else none
  priceResp := fun ids =>
    if ids == ["bitcoin"] then some ⟨true, [("bitcoin", 60000)]⟩ else none
  marketsResp := none
  chartResp := fun _ => none

/-- C2 witness; in particular BTC→USD with price 60000 yields rate 60000. -/
theorem mixedKind_rates_route_through_usd_witness :
    getFiatToCryptoExchangeRate envC2 "USD" (some "bitcoin") = .ok (some (1 / 60000)) ∧
    getFiatToCryptoExchangeRate envC2 "EUR" (some "bitcoin") = .ok (some ((10/9) / 60000)) ∧
    getCryptoToFiatExchangeRate envC2 (some "bitcoin") "USD" = .ok (some 60000) ∧
    getCryptoToFiatExchangeRate envC2 (some "bitcoin") "EUR" = .ok (some (60000 * (9/10))) :=
  mixedKind_rates_route_through_usd envC2 "bitcoin" 60000 ⟨true, [("bitcoin", 60000)]⟩
    "EUR" "EUR" ⟨true, [("USD", 10/9)]⟩ ⟨true, [("EUR", 9/10)]⟩ (10/9) (9/10)
    rfl rfl (by norm_num) (by decide) (by decide) rfl rfl rfl rfl

/-! ## C3: same-kind resolution is reciprocal -/

/-- C3.  Over the same provider data, Crypto↔Crypto rates multiply to exactly
1 (rate is `price(from)/price(to)` from the batched USD-price response), and
Fiat↔Fiat rates multiply to 1 whenever the two fetched tables are mutually
consistent (`table_A[B] * table_B[A] = 1`). -/
theorem resolve_reciprocal_same_kind
    (env : Env) (aId bId : String) (pa pb : ℚ) (respAB respBA : PriceResp)
    (hAB : env.priceResp [aId, bId] = some respAB) (hokAB : respAB.ok = true)
    (haAB : respAB.prices.lookup aId = some pa) (hbAB : respAB.prices.lookup bId = some pb)
    (hBA : env.priceResp [bId, aId] = some respBA) (hokBA : respBA.ok = true)
    (haBA : respBA.prices.lookup aId = some pa) (hbBA : respBA.prices.lookup bId = some pb)
    (hpa : pa ≠ 0) (hpb : pb ≠ 0)
    (codeA codeB : String) (tA tB : FiatResp) (rAB rBA : ℚ)
    (hfA : env.fiatResp codeA = some tA) (hokA : tA.ok = true)
    (hlA : tA.rates.lookup codeB = some rAB)
    (hfB : env.fiatResp codeB = some tB) (hokB : tB.ok = true)
    (hlB : tB.rates.lookup codeA = some rBA)
    (hcons : rAB * rBA = 1) :
    (getCryptoToCryptoExchangeRate env (some aId) (some bId) = .ok (some (pa / pb)) ∧
     getCryptoToCryptoExchangeRate env (some bId) (some aId) = .ok (some (pb / pa)) ∧
     pa / pb * (pb / pa) = 1) ∧
    (getFiatToFiatExchangeRate env codeA codeB = .ok (some rAB) ∧
     getFiatToFiatExchangeRate env codeB codeA = .ok (some rBA) ∧
     rAB * rBA = 1) := by
  refine ⟨⟨?_, ?_, ?_⟩, ?_, ?_, hcons⟩
  · simp [getCryptoToCryptoExchangeRate, jsDiv, hAB, hokAB, haAB, hbAB, hpb]
  · simp [getCryptoToCryptoExchangeRate, jsDiv, hBA, hokBA, haBA, hbBA, hpa]
  · field_simp
  · simp [getFiatToFiatExchangeRate, hfA, hokA, hlA]
  · simp [getFiatToFiatExchangeRate, hfB, hokB, hlB]

/-- Network environment for the C3 witness: BTC at 60000, ETH at 3000 (same
batched data in both id orders); USD↔EUR tables quoting `9/10` and `10/9`. -/
def envC3 : Env where
  fiatResp := fun q =>
    if q == "USD" then some ⟨true, [("EUR", 9/10)]⟩
    else if q == "EUR" then some ⟨true, [("USD", 10/9)]⟩
    else none
  priceResp := fun ids =>
    if ids == ["bitcoin", "ethereum"] || ids == ["ethereum", "bitcoin"] then
      some ⟨true, [("bitcoin", 60000), ("ethereum", 3000)]⟩
    else none
  marketsResp := none
  chartResp := fun _ => none

/-- C3 witness: BTC↔ETH and USD↔EUR resolved in both directions multiply
to 1. -/
theorem resolve_reciprocal_same_kind_witness :
    (getCryptoToCryptoExchangeRate envC3 (some "bitcoin") (some "ethereum") =
        .ok (some ((60000 : ℚ) / 3000)) ∧
     getCryptoToCryptoExchangeRate envC3 (some "ethereum") (some "bitcoin") =
        .ok (some ((3000 : ℚ) / 60000)) ∧
     (60000 : ℚ) / 3000 * (3000 / 60000) = 1) ∧
    (getFiatToFiatExchangeRate envC3 "USD" "EUR" = .ok (some (9/10)) ∧
     getFiatToFiatExchangeRate envC3 "EUR" "USD" = .ok (some (10/9)) ∧
     (9 : ℚ)/10 * (10/9) = 1) :=
  resolve_reciprocal_same_kind envC3 "bitcoin" "ethereum" 60000 3000
    ⟨true, [("bitcoin", 60000), ("ethereum", 3000)]⟩
    ⟨true, [("bitcoin", 60000), ("ethereum", 3000)]⟩
    rfl rfl rfl rfl rfl rfl rfl rfl (by norm_num) (by norm_num)
    "USD" "EUR" ⟨true, [("EUR", 9/10)]⟩ ⟨true, [("USD", 10/9)]⟩ (9/10) (10/9)
    rfl rfl rfl rfl rfl rfl (by norm_num)

/-! ## C10: a NaN amount is rejected like a non-positive amount -/

/-- C10.  When `parseFloat` yields `NaN` (`amount = none`), `convertCurrency`
rejects exactly as for a non-positive amount — same invalid-amount outcome —
and the outcome is independent of the network environment (no request is
issued). -/
theorem nan_amount_rejected_like_nonpositive
    (env1 env2 : Env) (cryptoIdMap : List (String × Option String))
    (fromC toC : Selection) (a : ℚ)
    (hfc : fromC.selectedCode ≠ "") (htc : toC.selectedCode ≠ "")
    (ha : a ≤ 0) :
    convertCurrency env1 cryptoIdMap (some fromC) (some toC) none =
      ConvOutcome.invalidAmount ∧
    convertCurrency env1 cryptoIdMap (some fromC) (some toC) (some a) =
      ConvOutcome.invalidAmount ∧
    convertCurrency env1 cryptoIdMap (some fromC) (some toC) none =
      convertCurrency env2 cryptoIdMap (some fromC) (some toC) none := by
  refine ⟨?_, ?_, ?_⟩ <;> simp [convertCurrency, hfc, htc, ha]

/-- An environment that answers every fiat-table request. -/
def envC10a : Env :=
  ⟨fun _ => some ⟨true, [("EUR", 9/10)]⟩, fun _ => none, none, fun _ => none⟩

/-- An environment where every request fails. -/
def envC10b : Env :=
  ⟨fun _ => none, fun _ => none, none, fun _ => none⟩

/-- C10 witness: an unparseable amount and the amount `-5` are both rejected
with the invalid-amount message, independently of the network. -/
theorem nan_amount_rejected_like_nonpositive_witness :
    convertCurrency envC10a [] (some ⟨"USD", "fiat", none⟩) (some ⟨"EUR", "fiat", none⟩)
      none = ConvOutcome.invalidAmount ∧
    convertCurrency envC10a [] (some ⟨"USD", "fiat", none⟩) (some ⟨"EUR", "fiat", none⟩)
      (some (-5)) = ConvOutcome.invalidAmount ∧
    convertCurrency envC10a [] (some ⟨"USD", "fiat", none⟩) (some ⟨"EUR", "fiat", none⟩)
      none =
      convertCurrency envC10b [] (some ⟨"USD", "fiat", none⟩) (some ⟨"EUR", "fiat", none⟩)
      none :=
  nan_amount_rejected_like_nonpositive envC10a envC10b []
    ⟨"USD", "fiat", none⟩ ⟨"EUR", "fiat", none⟩ (-5)
    (by decide) (by decide) (by norm_num)

/-! ## C9: propagation of rate-resolution failures -/

/-- C9 counterexample environment: the USD-quoted table exists but holds no
`EUR` key. -/
def envC9 : Env :=
  ⟨fun q => if q == "USD" then some ⟨true, [("GBP", 4/5)]⟩ else none,
   fun _ => none, none, fun _ => none⟩

/-- C9 counterexample: with a USD table lacking the `EUR` key, a USD→EUR
conversion of 100 does NOT surface the generic quotation-unavailable failure;
it displays a result whose rate and converted amount are `undefined`/`NaN`. -/
theorem missing_fiat_key_displays_nan_counterexample :
    convertCurrency envC9 [] (some ⟨"USD", "fiat", none⟩) (some ⟨"EUR", "fiat", none⟩)
      (some 100) = ConvOutcome.success 100 "USD" "EUR" none none ∧
    ConvOutcome.success 100 "USD" "EUR" none none ≠ ConvOutcome.quoteError := by
  constructor
  · decide
  · simp

/-- C9 (amended).  Errors that manifest as thrown exceptions — a rejected
fetch, a non-2xx status on the paths that check it, and a missing crypto
price key — propagate as the single generic quotation-unavailable failure
(no retry, no partial result), and the submit control is re-enabled whatever
the outcome; but a missing key in a fiat rate table is not detected: it
yields an `undefined` rate and a `NaN` converted amount displayed as a
result. -/
theorem quote_failures_generic_and_button_reenabled
    (env : Env) (cryptoIdMap : List (String × Option String))
    (fromC toC : Selection) (a : ℚ) (cid : String)
    (presp : PriceResp) (resp : FiatResp)
    (hfc : fromC.selectedCode ≠ "") (htc : toC.selectedCode ≠ "")
    (hne : fromC.selectedCode ≠ toC.selectedCode) (ha : 0 < a) :
    (fromC.selectedType = "fiat" → toC.selectedType = "fiat" →
      env.fiatResp fromC.selectedCode = none →
      convertCurrency env cryptoIdMap (some fromC) (some toC) (some a) =
        ConvOutcome.quoteError) ∧
    (fromC.selectedType = "fiat" → toC.selectedType = "fiat" →
      env.fiatResp fromC.selectedCode = some resp → resp.ok = false →
      convertCurrency env cryptoIdMap (some fromC) (some toC) (some a) =
        ConvOutcome.quoteError) ∧
    (fromC.selectedType = "crypto" → toC.selectedType = "fiat" →
      fromC.selectedId = some cid →
      env.priceResp [cid] = some presp → presp.prices.lookup cid = none →
      convertCurrency env cryptoIdMap (some fromC) (some toC) (some a) =
        ConvOutcome.quoteError) ∧
    (fromC.selectedType = "fiat" → toC.selectedType = "fiat" →
      env.fiatResp fromC.selectedCode = some resp → resp.ok = true →
      resp.rates.lookup toC.selectedCode = none →
      convertCurrency env cryptoIdMap (some fromC) (some toC) (some a) =
        ConvOutcome.success a fromC.selectedCode toC.selectedCode none none) ∧
    submitEnabledAfter (convertCurrency env cryptoIdMap (some fromC) (some toC) (some a)) =
      true := by
  refine ⟨?_, ?_, ?_, ?_, ?_⟩
  · intro hft htt hnone
    simp [convertCurrency, getFiatToFiatExchangeRate, hfc, htc, hne, ha.not_le,
      hft, htt, hnone]
  · intro hft htt hsome hok
    simp [convertCurrency, getFiatToFiatExchangeRate, hfc, htc, hne, ha.not_le,
      hft, htt, hsome, hok]
  · intro hft htt hid hpr hmiss
    simp [convertCurrency, getCryptoToFiatExchangeRate, hfc, htc, hne, ha.not_le,
      hft, htt, hid, hpr, hmiss, Option.orElse]
  · intro hft htt hsome hok hmiss
    simp [convertCurrency, getFiatToFiatExchangeRate, hfc, htc, hne, ha.not_le,
      hft, htt, hsome, hok, hmiss]
  · cases convertCurrency env cryptoIdMap (some fromC) (some toC) (some a) <;> rfl

/-- C9 witness environment: crypto price response that lacks the requested
id key. -/
def envC9w : Env :=
  ⟨fun _ => none, fun ids => if ids == ["bitcoin"] then some ⟨true, []⟩ else none,
   none, fun _ => none⟩

/-- C9 witness: a BTC→USD request whose price response omits the `bitcoin`
key surfaces the generic failure, and the submit control ends re-enabled. -/
theorem quote_failures_generic_and_button_reenabled_witness :
    ((⟨"BTC", "crypto", some "bitcoin"⟩ : Selection).selectedType = "fiat" →
      (⟨"USD", "fiat", none⟩ : Selection).selectedType = "fiat" →
      envC9w.fiatResp "BTC" = none →
      convertCurrency envC9w [] (some ⟨"BTC", "crypto", some "bitcoin"⟩)
        (some ⟨"USD", "fiat", none⟩) (some 2) = ConvOutcome.quoteError) ∧
    ((⟨"BTC", "crypto", some "bitcoin"⟩ : Selection).selectedType = "fiat" →
      (⟨"USD", "fiat", none⟩ : Selection).selectedType = "fiat" →
      envC9w.fiatResp "BTC" = some ⟨true, []⟩ → (true : Bool) = false →
      convertCurrency envC9w [] (some ⟨"BTC", "crypto", some "bitcoin"⟩)
        (some ⟨"USD", "fiat", none⟩) (some 2) = ConvOutcome.quoteError) ∧
    ((⟨"BTC", "crypto", some "bitcoin"⟩ : Selection).selectedType = "crypto" →
      (⟨"USD", "fiat", none⟩ : Selection).selectedType = "fiat" →
      (⟨"BTC", "crypto", some "bitcoin"⟩ : Selection).selectedId = some "bitcoin" →
      envC9w.priceResp ["bitcoin"] = some ⟨true, []⟩ →
      (PriceResp.mk true []).prices.lookup "bitcoin" = none →
      convertCurrency envC9w [] (some ⟨"BTC", "crypto", some "bitcoin"⟩)
        (some ⟨"USD", "fiat", none⟩) (some 2) = ConvOutcome.quoteError) ∧
    ((⟨"BTC", "crypto", some "bitcoin"⟩ : Selection).selectedType = "fiat" →
      (⟨"USD", "fiat", none⟩ : Selection).selectedType = "fiat" →
      envC9w.fiatResp "BTC" = some ⟨true, []⟩ → (true : Bool) = true →
      (FiatResp.mk true []).rates.lookup "USD" = none →
      convertCurrency envC9w [] (some ⟨"BTC", "crypto", some "bitcoin"⟩)
        (some ⟨"USD", "fiat", none⟩) (some 2) =
        ConvOutcome.success 2 "BTC" "USD" none none) ∧
    submitEnabledAfter (convertCurrency envC9w [] (some ⟨"BTC", "crypto", some "bitcoin"⟩)
      (some ⟨"USD", "fiat", none⟩) (some 2)) = true :=
  quote_failures_generic_and_button_reenabled envC9w []
    ⟨"BTC", "crypto", some "bitcoin"⟩ ⟨"USD", "fiat", none⟩ 2 "bitcoin"
    ⟨true, []⟩ ⟨true, []⟩
    (by decide) (by decide) (by decide) (by norm_num)

/-! ## C8: autocomplete grouping and caps -/

/-- The rendered groups of `renderCurrencyGroups`: each is a prefix of the
matches of its kind (hence preserves input order), the fiat group holds at
most 15 entries, and the two groups together hold at most 30. -/
theorem renderCurrencyGroups_bounds (l : List Currency) :
    (renderCurrencyGroups l).1.length ≤ 15 ∧
    (renderCurrencyGroups l).1.length + (renderCurrencyGroups l).2.length ≤ 30 ∧
    (renderCurrencyGroups l).1 <+: l.filter (fun x => x.type == "fiat") ∧
    (renderCurrencyGroups l).2 <+: l.filter (fun x => x.type == "crypto") := by
  unfold renderCurrencyGroups
  refine ⟨?_, ?_, ?_, ?_⟩ <;> simp only [] <;> repeat' split
  all_goals
    first
      | exact List.take_prefix _ _
      | exact List.nil_prefix
      | (simp only [List.length_take, List.length_nil]; omega)

/-- C8.  Whenever `showAutocompleteResults` renders grouped results, the fiat
group comes first and the crypto group second, each preserving catalog order
(each group is a prefix of the matches of its kind, and a sublist of the
catalog), with at most 15 fiat entries and at most 30 entries in total. -/
theorem autocomplete_groups_ordered_and_capped
    (catalog : List Currency) (query : String) (f c : List Currency)
    (h : showAutocompleteResults catalog query = .groups f c) :
    f.length ≤ 15 ∧ f.length + c.length ≤ 30 ∧
    f <+: (catalog.filter (matchesQuery query)).filter (fun x => x.type == "fiat") ∧
    c <+: (catalog.filter (matchesQuery query)).filter (fun x => x.type == "crypto") ∧
    f.Sublist catalog ∧ c.Sublist catalog ∧
    (∀ x ∈ f, x.type = "fiat") ∧ (∀ x ∈ c, x.type = "crypto") := by
  have hfc : (f, c) = renderCurrencyGroups (catalog.filter (matchesQuery query)) := by
    unfold showAutocompleteResults at h
    simp only [] at h
    split at h
    all_goals try split at h
    all_goals try split at h
    all_goals try split at h
    all_goals try split at h
    all_goals simp_all [Prod.ext_iff]
  obtain ⟨h1, h2, h3, h4⟩ := renderCurrencyGroups_bounds (catalog.filter (matchesQuery query))
  rw [← hfc] at h1 h2 h3 h4
  have hsf : f.Sublist catalog :=
    (h3.sublist.trans (List.filter_sublist _)).trans (List.filter_sublist _)
  have hsc : c.Sublist catalog :=
    (h4.sublist.trans (List.filter_sublist _)).trans (List.filter_sublist _)
  refine ⟨h1, h2, h3, h4, hsf, hsc, ?_, ?_⟩
  · intro x hx
    have := h3.sublist.subset hx
    simp only [List.mem_filter] at this
    simpa using this.2
  · intro x hx
    have := h4.sublist.subset hx
    simp only [List.mem_filter] at this
    simpa using this.2

/-- Catalog for the C8 witness. -/
def catalogC8 : List Currency :=
  [{ code := "USD", name := "Dolar", type := "fiat" },
   { code := "EUR", name := "Euro", type := "fiat" },
   { code := "BTC", name := "Bitcoin", type := "crypto", id := some "bitcoin" }]

/-- C8 witness: the query "o" matches all three entries and renders the two
fiat entries first, then the crypto entry, within the caps. -/
theorem autocomplete_groups_ordered_and_capped_witness :
    ([{ code := "USD", name := "Dolar", type := "fiat" },
      { code := "EUR", name := "Euro", type := "fiat" }] : List Currency).length ≤ 15 ∧
    ([{ code := "USD", name := "Dolar", type := "fiat" },
      { code := "EUR", name := "Euro", type := "fiat" }] : List Currency).length +
      ([{ code := "BTC", name := "Bitcoin", type := "crypto", id := some "bitcoin" }] :
        List Currency).length ≤ 30 ∧
    ([{ code := "USD", name := "Dolar", type := "fiat" },
      { code := "EUR", name := "Euro", type := "fiat" }] : List Currency) <+:
      (catalogC8.filter (matchesQuery "o")).filter (fun x => x.type == "fiat") ∧
    ([{ code := "BTC", name := "Bitcoin", type := "crypto", id := some "bitcoin" }] :
        List Currency) <+:
      (catalogC8.filter (matchesQuery "o")).filter (fun x => x.type == "crypto") ∧
    List.Sublist
      ([{ code := "USD", name := "Dolar", type := "fiat" },
        { code := "EUR", name := "Euro", type := "fiat" }] : List Currency) catalogC8 ∧
    List.Sublist
      ([{ code := "BTC", name := "Bitcoin", type := "crypto", id := some "bitcoin" }] :
        List Currency) catalogC8 ∧
    (∀ x ∈ ([{ code := "USD", name := "Dolar", type := "fiat" },
        { code := "EUR", name := "Euro", type := "fiat" }] : List Currency),
      x.type = "fiat") ∧
    (∀ x ∈ ([{ code := "BTC", name := "Bitcoin", type := "crypto", id := some "bitcoin" }] :
        List Currency), x.type = "crypto") :=
  autocomplete_groups_ordered_and_capped catalogC8 "o"
    [{ code := "USD", name := "Dolar", type := "fiat" },
     { code := "EUR", name := "Euro", type := "fiat" }]
    [{ code := "BTC", name := "Bitcoin", type := "crypto", id := some "bitcoin" }]
    (by decide)

/-! ## C4: point counts of the historical series builder -/

/-- The 30 day-labels `today-29 .. today` emitted by the fiat and fallback
series loops are strictly increasing (oldest to newest). -/
theorem range30_labels_chain (today : Int) :
    List.Chain' (· < ·) ((List.range 30).map fun i : ℕ => today - 29 + (i : ℤ)) := by
  apply List.Pairwise.chain'
  refine List.Pairwise.map _ ?_ (List.pairwise_lt_range 30)
  intro a b hab
  omega

/-- C4 (amended).  The fiat simulated path and the fallback path always
return exactly 30 points, oldest to newest; the crypto-fetched path returns
one point per element of the provider response, in provider order (not a
hard 30). -/
theorem historical_series_point_counts
    (env : Env) (rand : Nat → ℚ) (today : Int)
    (cryptoIdMap : List (String × Option String))
    (fromCurrency toCurrency code target cid : String)
    (ps : List (Int × ℚ)) (inv : Bool)
    (hid : getCryptoId cryptoIdMap code = some cid)
    (hresp : env.chartResp cid = some ⟨true, some ps⟩) :
    ((getFiatCurrencyHistoricalData env rand today fromCurrency toCurrency).labels.length = 30 ∧
     (getFiatCurrencyHistoricalData env rand today fromCurrency toCurrency).data.length = 30 ∧
     List.Chain' (· < ·)
       (getFiatCurrencyHistoricalData env rand today fromCurrency toCurrency).labels) ∧
    ((generateFallbackChartData rand today).labels.length = 30 ∧
     (generateFallbackChartData rand today).data.length = 30 ∧
     List.Chain' (· < ·) (generateFallbackChartData rand today).labels) ∧
    (∃ d, getCryptocurrencyHistoricalData env cryptoIdMap code target inv = .ok d ∧
      d.labels = ps.map Prod.fst ∧ d.labels.length = ps.length ∧
      d.data.length = ps.length) := by
  have hchain := range30_labels_chain today
  refine ⟨?_, ⟨?_, ?_, ?_⟩, ?_⟩
  · unfold getFiatCurrencyHistoricalData
    cases hr : getFiatToFiatExchangeRate env fromCurrency toCurrency with
    | error e =>
      exact ⟨by simp [generateFallbackChartData], by simp [generateFallbackChartData],
        by simpa [generateFallbackChartData] using hchain⟩
    | ok v =>
      exact ⟨by simp, by simp, by simpa using hchain⟩
  · simp [generateFallbackChartData]
  · simp [generateFallbackChartData]
  · simpa [generateFallbackChartData] using hchain
  · cases inv <;>
      · simp only [getCryptocurrencyHistoricalData, hid, hresp]
        refine ⟨_, rfl, ?_, ?_, ?_⟩ <;>
          simp [Function.comp]

/-- C4 counterexample environment: the provider sends only two price points
for the 30-day request. -/
def envC4 : Env :=
  ⟨fun _ => none, fun _ => none, none,
   fun cid => if cid == "bitcoin" then some ⟨true, some [(0, 1), (1, 2)]⟩ else none⟩

/-- C4 counterexample: on the crypto-fetched path the builder returns exactly
as many points as the response holds — here 2, not 30. -/
theorem historical_series_point_counts_counterexample :
    getCryptocurrencyHistoricalData envC4 [("BTC", some "bitcoin")] "BTC" "USD" false =
      .ok ⟨[0, 1], [some 1, some 2]⟩ ∧
    ([(0 : Int), 1].length = 30 → False) := by
  constructor
  · rfl
  · decide

/-- C4 witness environment: the provider sends 30 points. -/
def envC4w : Env :=
  ⟨fun _ => none, fun _ => none, none,
   fun cid =>
     if cid == "bitcoin" then some ⟨true, some ((List.range 30).map fun i => ((i : Int), 5))⟩
     else none⟩

/-- C4 witness: concrete instantiation of the amended point-count theorem. -/
theorem historical_series_point_counts_witness :
    ((getFiatCurrencyHistoricalData envC4w (fun _ => 1/2) 0 "USD" "EUR").labels.length = 30 ∧
     (getFiatCurrencyHistoricalData envC4w (fun _ => 1/2) 0 "USD" "EUR").data.length = 30 ∧
     List.Chain' (· < ·)
       (getFiatCurrencyHistoricalData envC4w (fun _ => 1/2) 0 "USD" "EUR").labels) ∧
    ((generateFallbackChartData (fun _ => 1/2) 0).labels.length = 30 ∧
     (generateFallbackChartData (fun _ => 1/2) 0).data.length = 30 ∧
     List.Chain' (· < ·) (generateFallbackChartData (fun _ => 1/2) 0).labels) ∧
    (∃ d, getCryptocurrencyHistoricalData envC4w [("BTC", some "bitcoin")] "BTC" "USD" false =
        .ok d ∧
      d.labels = ((List.range 30).map fun i => ((i : Int), (5 : ℚ))).map Prod.fst ∧
      d.labels.length = ((List.range 30).map fun i => ((i : Int), (5 : ℚ))).length ∧
      d.data.length = ((List.range 30).map fun i => ((i : Int), (5 : ℚ))).length) :=
  historical_series_point_counts envC4w (fun _ => 1/2) 0 [("BTC", some "bitcoin")]
    "USD" "EUR" "BTC" "USD" "bitcoin" ((List.range 30).map fun i => ((i : Int), 5)) false
    (by decide) rfl

/-! ## C5: failure handling during series construction -/

/-- C5 counterexample environment: every request fails. -/
def envC5 : Env := ⟨fun _ => none, fun _ => none, none, fun _ => none⟩

/-- A deterministic stand-in for `Math.random`. -/
def randC5 : Nat → ℚ := fun _ => 1/2

/-- C5 counterexample: when the crypto history fetch fails, the error
propagates out of the builder and the chart region shows the inline error
marker — no ±1% fallback series is rendered. -/
theorem crypto_chart_failure_shows_error_counterexample :
    displayPriceChart envC5 [("BTC", some "bitcoin")] randC5 0 "BTC" "USD" "crypto" "fiat" =
      ChartOutcome.chartError ∧
    displayPriceChart envC5 [("BTC", some "bitcoin")] randC5 0 "BTC" "USD" "crypto" "fiat" ≠
      ChartOutcome.chart ("BTC → USD") (generateFallbackChartData randC5 0) := by
  constructor
  · rfl
  · intro h
    exact absurd h (by decide)

/-- C5 (amended).  Only the Fiat→Fiat path falls back on failure: when the
baseline rate fetch throws, the builder returns the 30-point placeholder
series whose values stay within ±1% of 1.0 (given that `Math.random` draws
lie in `[0,1)`); on a crypto path a fetch/parse failure propagates and the
chart region shows the inline error marker instead of a series. -/
theorem series_failure_fallback_and_error_marker
    (env : Env) (rand : Nat → ℚ) (today : Int)
    (cryptoIdMap : List (String × Option String))
    (fromCurrency toCurrency : String)
    (h01 : ∀ k, 0 ≤ rand k ∧ rand k < 1) :
    (getFiatToFiatExchangeRate env fromCurrency toCurrency = .error () →
      getFiatCurrencyHistoricalData env rand today fromCurrency toCurrency =
        generateFallbackChartData rand today) ∧
    ((generateFallbackChartData rand today).data.length = 30 ∧
     ∀ v ∈ (generateFallbackChartData rand today).data,
       ∃ q, v = some q ∧ |q - 1| ≤ 1/100) ∧
    (getCryptocurrencyHistoricalData env cryptoIdMap fromCurrency toCurrency = .error () →
      displayPriceChart env cryptoIdMap rand today fromCurrency toCurrency "crypto" "fiat" =
        ChartOutcome.chartError) := by
  refine ⟨?_, ⟨?_, ?_⟩, ?_⟩
  · intro h
    simp [getFiatCurrencyHistoricalData, h]
  · simp [generateFallbackChartData]
  · intro v hv
    simp only [generateFallbackChartData, List.mem_map, List.mem_range] at hv
    obtain ⟨i, hi, rfl⟩ := hv
    refine ⟨_, rfl, ?_⟩
    obtain ⟨h0, h1⟩ := h01 i
    rw [abs_le]
    constructor <;> linarith
  · intro h
    simp [displayPriceChart, h]

/-- C5 witness: with every request failing and `Math.random` fixed at 1/2,
the fiat path returns the fallback series, its values stay within ±1% of 1,
and the crypto path surfaces the chart error. -/
theorem series_failure_fallback_and_error_marker_witness :
    (getFiatToFiatExchangeRate envC5 "USD" "EUR" = .error () →
      getFiatCurrencyHistoricalData envC5 randC5 0 "USD" "EUR" =
        generateFallbackChartData randC5 0) ∧
    ((generateFallbackChartData randC5 0).data.length = 30 ∧
     ∀ v ∈ (generateFallbackChartData randC5 0).data,
       ∃ q, v = some q ∧ |q - 1| ≤ 1/100) ∧
    (getCryptocurrencyHistoricalData envC5 [] "USD" "EUR" = .error () →
      displayPriceChart envC5 [] randC5 0 "USD" "EUR" "crypto" "fiat" =
        ChartOutcome.chartError) :=
  series_failure_fallback_and_error_marker envC5 randC5 0 [] "USD" "EUR"
    (fun k => by norm_num [randC5])

/-! ## C6: orientation of the plotted crypto series -/

/-- C6.  When the target is Crypto and the source is Fiat, the plotted series
is the crypto daily USD series with every value inverted (`1/price`); when
the source is Crypto the values are used uninverted — so the series keeps the
same source-per-target orientation as the live rate. -/
theorem chart_series_orientation
    (env : Env) (cryptoIdMap : List (String × Option String))
    (rand : Nat → ℚ) (today : Int)
    (fromFiat toCrypto fromCrypto target cid cid2 : String)
    (ps ps2 : List (Int × ℚ))
    (hid : getCryptoId cryptoIdMap toCrypto = some cid)
    (hresp : env.chartResp cid = some ⟨true, some ps⟩)
    (hps : ∀ p ∈ ps, p.2 ≠ 0)
    (hid2 : getCryptoId cryptoIdMap fromCrypto = some cid2)
    (hresp2 : env.chartResp cid2 = some ⟨true, some ps2⟩) :
    displayPriceChart env cryptoIdMap rand today fromFiat toCrypto "fiat" "crypto" =
      ChartOutcome.chart (fromFiat ++ " → " ++ toCrypto)
        ⟨ps.map Prod.fst, ps.map fun p => some (1 / p.2)⟩ ∧
    displayPriceChart env cryptoIdMap rand today fromCrypto target "crypto" "fiat" =
      ChartOutcome.chart (fromCrypto ++ " → " ++ target)
        ⟨ps2.map Prod.fst, ps2.map fun p => some p.2⟩ := by
  constructor
  · have hdata : ps.map (fun p => ((p.1, jsDiv 1 p.2) : Int × Option ℚ)) =
        ps.map fun p => (p.1, some (1 / p.2)) :=
      List.map_congr_left fun p hp => by simp [jsDiv, hps p hp]
    simp [displayPriceChart, getCryptocurrencyHistoricalData, hid, hresp, hdata,
      Function.comp]
  · simp [displayPriceChart, getCryptocurrencyHistoricalData, hid2, hresp2,
      Function.comp]

/-- C6 witness environment: BTC daily USD prices `[(0,2),(1,4)]`. -/
def envC6 : Env :=
  ⟨fun _ => none, fun _ => none, none,
   fun cid => if cid == "bitcoin" then some ⟨true, some [(0, 2), (1, 4)]⟩ else none⟩

/-- C6 witness: USD→BTC plots the inverted series, BTC→USD the uninverted
one. -/
theorem chart_series_orientation_witness :
    displayPriceChart envC6 [("BTC", some "bitcoin")] randC5 0 "USD" "BTC" "fiat" "crypto" =
      ChartOutcome.chart ("USD → BTC")
        ⟨([((0 : Int), (2 : ℚ)), (1, 4)]).map Prod.fst,
         ([((0 : Int), (2 : ℚ)), (1, 4)]).map fun p => some (1 / p.2)⟩ ∧
    displayPriceChart envC6 [("BTC", some "bitcoin")] randC5 0 "BTC" "USD" "crypto" "fiat" =
      ChartOutcome.chart ("BTC → USD")
        ⟨([((0 : Int), (2 : ℚ)), (1, 4)]).map Prod.fst,
         ([((0 : Int), (2 : ℚ)), (1, 4)]).map fun p => some p.2⟩ :=
  chart_series_orientation envC6 [("BTC", some "bitcoin")] randC5 0
    "USD" "BTC" "BTC" "USD" "bitcoin" "bitcoin"
    [(0, 2), (1, 4)] [(0, 2), (1, 4)]
    (by decide) rfl (by norm_num) (by decide) rfl

/-! ## C7: catalog invariants -/

/-- On an ASCII lowercase letter, `Char.toUpper` lands 32 below. -/
theorem charToUpper_toNat_of_lower (c : Char) (h1 : 97 ≤ c.toNat) (h2 : c.toNat ≤ 122) :
    (Char.toUpper c).toNat = c.toNat - 32 := by
  have hv : Nat.isValidChar (c.toNat - 32) := Or.inl (by omega)
  unfold Char.toUpper
  show (if c.toNat ≥ 97 ∧ c.toNat ≤ 122 then Char.ofNat (c.toNat - 32) else c).toNat =
    c.toNat - 32
  split
  · show (Char.ofNat (c.toNat - 32)).toNat = c.toNat - 32
    rw [Char.ofNat, dif_pos hv]
    rfl
  · rename_i hcond
    exact absurd ⟨h1, h2⟩ hcond

/-- `Char.toUpper` fixes anything that is not an ASCII lowercase letter. -/
theorem charToUpper_eq_self (c : Char) (h : ¬(97 ≤ c.toNat ∧ c.toNat ≤ 122)) :
    Char.toUpper c = c := by
  unfold Char.toUpper
  show (if c.toNat ≥ 97 ∧ c.toNat ≤ 122 then Char.ofNat (c.toNat - 32) else c) = c
  split
  · rename_i hcond
    exact absurd hcond h
  · rfl

/-- `Char.toUpper` is idempotent. -/
theorem charToUpper_idem (c : Char) : Char.toUpper (Char.toUpper c) = Char.toUpper c := by
  by_cases h : 97 ≤ c.toNat ∧ c.toNat ≤ 122
  · apply charToUpper_eq_self
    rw [charToUpper_toNat_of_lower c h.1 h.2]
    omega
  · rw [charToUpper_eq_self c h, charToUpper_eq_self c h]

/-- The modeled JS `toUpperCase` is idempotent. -/
theorem jsToUpperCase_idem (s : String) :
    jsToUpperCase (jsToUpperCase s) = jsToUpperCase s := by
  unfold jsToUpperCase
  congr 1
  show (s.data.map Char.toUpper).map Char.toUpper = s.data.map Char.toUpper
  rw [List.map_map]
  exact List.map_congr_left fun c _ => charToUpper_idem c

/-- A string is canonically uppercase when JS `toUpperCase` fixes it. -/
def isCanonUpper (s : String) : Bool := jsToUpperCase s == s

/-- Anything produced by `toUpperCase` is canonically uppercase. -/
theorem isCanonUpper_jsToUpperCase (s : String) : isCanonUpper (jsToUpperCase s) = true := by
  simp [isCanonUpper, jsToUpperCase_idem]

/-- A key that occurs among the first components of an association list is
found by `List.lookup`. -/
theorem lookup_isSome_of_mem_keys {β : Type} {l : List (String × β)} {k : String}
    (h : k ∈ l.map Prod.fst) : (l.lookup k).isSome = true := by
  induction l with
  | nil => simp at h
  | cons p t ih =>
    obtain ⟨k1, v1⟩ := p
    simp only [List.map_cons, List.mem_cons] at h
    by_cases hk : k == k1
    · simp [List.lookup, hk]
    · rcases h with h | h
      · exact absurd (by simp [h]) hk
      · simp [List.lookup, hk, ih h]

/-- The live branch of `loadFiatCurrencies`, as an equation. -/
theorem loadFiatCurrencies_live (env : Env) (names : List (String × String))
    (r : FiatResp) (hr : env.fiatResp "USD" = some r) (hok : r.ok = true) :
    loadFiatCurrencies env names =
      (({ code := "USD", name := (names.lookup "USD").getD "Dólar Estadounidense",
          type := "fiat" } : Currency) ::
        r.rates.map fun kv =>
          ({ code := kv.1, name := (names.lookup kv.1).getD kv.1,
             type := "fiat" } : Currency)).mergeSort
        (fun a b => decide (a.code ≤ b.code)) := by
  unfold loadFiatCurrencies
  rw [hr]
  simp [hok]

/-- The failure branches of `loadFiatCurrencies`, as an equation. -/
theorem loadFiatCurrencies_fallback (env : Env) (names : List (String × String))
    (h : env.fiatResp "USD" = none ∨ ∃ r, env.fiatResp "USD" = some r ∧ r.ok = false) :
    loadFiatCurrencies env names = fallbackFiatCurrencies := by
  unfold loadFiatCurrencies
  rcases h with h | ⟨r, hr, hok⟩
  · rw [h]
  · rw [hr]
    simp [hok]

/-- Codes, canonical case and kind of the fiat leg, under the provider
contract (uppercase, duplicate-free keys that do not include USD). -/
theorem loadFiatCurrencies_spec (env : Env) (names : List (String × String))
    (hfiat : ∀ r, env.fiatResp "USD" = some r → r.ok = true →
      (r.rates.map Prod.fst).Nodup ∧
      ∀ k ∈ r.rates.map Prod.fst, isCanonUpper k = true ∧ k ≠ "USD") :
    ((loadFiatCurrencies env names).map Currency.code).Nodup ∧
    ∀ c ∈ loadFiatCurrencies env names, isCanonUpper c.code = true ∧ c.type = "fiat" := by
  rcases hr : env.fiatResp "USD" with _ | r
  · rw [loadFiatCurrencies_fallback env names (Or.inl hr)]
    exact ⟨by decide, by decide⟩
  · cases hok : r.ok with
    | false =>
      rw [loadFiatCurrencies_fallback env names (Or.inr ⟨r, hr, hok⟩)]
      exact ⟨by decide, by decide⟩
    | true =>
      obtain ⟨hnd, hks⟩ := hfiat r hr hok
      rw [loadFiatCurrencies_live env names r hr hok]
      have hperm := List.mergeSort_perm
        (({ code := "USD", name := (names.lookup "USD").getD "Dólar Estadounidense",
            type := "fiat" } : Currency) ::
          r.rates.map fun kv =>
            ({ code := kv.1, name := (names.lookup kv.1).getD kv.1,
               type := "fiat" } : Currency))
        (fun a b => decide (a.code ≤ b.code))
      constructor
      · refine (hperm.map Currency.code).nodup_iff.mpr ?_
        simp only [List.map_cons, List.map_map, List.nodup_cons]
        constructor
        · intro hmem
          simp only [List.mem_map, Function.comp] at hmem
          obtain ⟨kv, hkv, hEq⟩ := hmem
          exact (hks kv.1 (List.mem_map.mpr ⟨kv, hkv, rfl⟩)).2 hEq
        · simpa [List.map_map, Function.comp] using hnd
      · intro c hc
        have hc2 := hperm.subset hc
        rcases List.mem_cons.mp hc2 with h | h
        · subst h
          exact ⟨(by decide : isCanonUpper "USD" = true), rfl⟩
        · obtain ⟨kv, hkv, rfl⟩ := List.mem_map.mp h
          exact ⟨(hks kv.1 (List.mem_map.mpr ⟨kv, hkv, rfl⟩)).1, rfl⟩

/-- Codes, canonical case and id-index coverage of the crypto leg, on both
the live and the fallback paths. -/
theorem loadCryptoCurrencies_spec (env : Env) (fb : List Currency)
    (hmkts : ∀ m, env.marketsResp = some m → m.ok = true →
      (m.coins.map fun coin => jsToUpperCase coin.symbol).Nodup)
    (hfb1 : (fb.map Currency.code).Nodup)
    (hfb2 : ∀ c ∈ fb, isCanonUpper c.code = true) :
    ((loadCryptoCurrencies env fb).1.map Currency.code).Nodup ∧
    (∀ d ∈ (loadCryptoCurrencies env fb).1, isCanonUpper d.code = true) ∧
    (∀ d ∈ (loadCryptoCurrencies env fb).1,
      (((loadCryptoCurrencies env fb).2).lookup d.code).isSome = true) := by
  have hfallback : ∀ d ∈ fb,
      ((fb.map fun c => (c.code, c.id)).lookup d.code).isSome = true := by
    intro d hd
    apply lookup_isSome_of_mem_keys
    rw [List.map_map]
    exact List.mem_map.mpr ⟨d, hd, rfl⟩
  rcases hm : env.marketsResp with _ | m
  · have he : loadCryptoCurrencies env fb = (fb, fb.map fun c => (c.code, c.id)) := by
      unfold loadCryptoCurrencies
      rw [hm]
    rw [he]
    exact ⟨hfb1, hfb2, hfallback⟩
  · cases hok : m.ok with
    | false =>
      have he : loadCryptoCurrencies env fb = (fb, fb.map fun c => (c.code, c.id)) := by
        unfold loadCryptoCurrencies
        rw [hm]
        simp [hok]
      rw [he]
      exact ⟨hfb1, hfb2, hfallback⟩
    | true =>
      have he : loadCryptoCurrencies env fb =
          (m.coins.map fun coin =>
            ({ code := jsToUpperCase coin.symbol, name := coin.name, type := "crypto",
               id := some coin.id } : Currency),
           m.coins.map fun coin => (jsToUpperCase coin.symbol, some coin.id)) := by
        unfold loadCryptoCurrencies
        rw [hm]
        simp [hok]
      rw [he]
      refine ⟨?_, ?_, ?_⟩
      · simpa [List.map_map, Function.comp] using hmkts m hm hok
      · intro d hd
        obtain ⟨coin, hcoin, rfl⟩ := List.mem_map.mp hd
        exact isCanonUpper_jsToUpperCase _
      · intro d hd
        obtain ⟨coin, hcoin, rfl⟩ := List.mem_map.mp hd
        apply lookup_isSome_of_mem_keys
        rw [List.map_map]
        exact List.mem_map.mpr ⟨coin, hcoin, rfl⟩

/-- C7 (amended).  Provided the fiat table keys are canonically uppercase,
duplicate-free and do not include USD, the ranked coin symbols are
duplicate-free after uppercasing, the bundled fallback crypto codes are
canonically uppercase and duplicate-free, and the two legs do not collide,
then every catalog code is canonically uppercase and unique, and every
Crypto entry has a CryptoIdIndex entry — on both the live and the fallback
crypto paths. -/
theorem catalog_codes_upper_unique_indexed
    (env : Env) (currencyNames : List (String × String)) (fallbackCryptos : List Currency)
    (hfiat : ∀ r, env.fiatResp "USD" = some r → r.ok = true →
      (r.rates.map Prod.fst).Nodup ∧
      ∀ k ∈ r.rates.map Prod.fst, isCanonUpper k = true ∧ k ≠ "USD")
    (hmkts : ∀ m, env.marketsResp = some m → m.ok = true →
      (m.coins.map fun coin => jsToUpperCase coin.symbol).Nodup)
    (hfb1 : (fallbackCryptos.map Currency.code).Nodup)
    (hfb2 : ∀ c ∈ fallbackCryptos, isCanonUpper c.code = true)
    (hdisj : ∀ c ∈ loadFiatCurrencies env currencyNames,
      ∀ d ∈ (loadCryptoCurrencies env fallbackCryptos).1, c.code ≠ d.code) :
    (∀ c ∈ (loadCurrencies env currencyNames fallbackCryptos).1,
      isCanonUpper c.code = true) ∧
    ((loadCurrencies env currencyNames fallbackCryptos).1.map Currency.code).Nodup ∧
    (∀ c ∈ (loadCurrencies env currencyNames fallbackCryptos).1, c.type = "crypto" →
      (((loadCurrencies env currencyNames fallbackCryptos).2).lookup c.code).isSome =
        true) := by
  obtain ⟨hFnd, hFall⟩ := loadFiatCurrencies_spec env currencyNames hfiat
  obtain ⟨hCnd, hCup, hCid⟩ := loadCryptoCurrencies_spec env fallbackCryptos hmkts hfb1 hfb2
  have hcat : (loadCurrencies env currencyNames fallbackCryptos).1 =
      loadFiatCurrencies env currencyNames ++
        (loadCryptoCurrencies env fallbackCryptos).1 := rfl
  have hmap : (loadCurrencies env currencyNames fallbackCryptos).2 =
      (loadCryptoCurrencies env fallbackCryptos).2 := rfl
  refine ⟨?_, ?_, ?_⟩
  · intro c hc
    rw [hcat] at hc
    rcases List.mem_append.mp hc with h | h
    · exact (hFall c h).1
    · exact hCup c h
  · rw [hcat, List.map_append, List.nodup_append]
    refine ⟨hFnd, hCnd, ?_⟩
    intro a haF haC
    obtain ⟨c, hcF, rfl⟩ := List.mem_map.mp haF
    obtain ⟨d, hdC, hEq⟩ := List.mem_map.mp haC
    exact hdisj c hcF d hdC hEq.symm
  · intro c hc hty
    rw [hcat] at hc
    rw [hmap]
    rcases List.mem_append.mp hc with h | h
    · have := (hFall c h).2
      rw [this] at hty
      exact absurd hty (by decide)
    · exact hCid c h

/-- C7 counterexample environment: the ranking provider answers with two
coins sharing the ticker symbol `btc`. -/
def envC7x : Env :=
  ⟨fun _ => none, fun _ => none,
   some ⟨true, [⟨"bitcoin", "btc", "Bitcoin"⟩, ⟨"bitcoin-cash", "btc", "BitcoinCash"⟩]⟩,
   fun _ => none⟩

/-- C7 counterexample: a successfully built catalog holding the code `BTC`
twice — codes are not unique for arbitrary provider data. -/
theorem catalog_codes_upper_unique_indexed_counterexample :
    (loadCurrencies envC7x [] []).1.map Currency.code =
      ["USD", "EUR", "GBP", "JPY", "ARS", "BRL", "BTC", "BTC"] ∧
    ¬ (["USD", "EUR", "GBP", "JPY", "ARS", "BRL", "BTC", "BTC"] : List String).Nodup := by
  constructor
  · rfl
  · decide

/-- C7 witness environment: a live crypto ranking answer (the fiat request
fails, so the fiat leg degrades to its hardcoded fallback). -/
def envC7w : Env :=
  ⟨fun _ => none, fun _ => none,
   some ⟨true, [⟨"bitcoin", "btc", "Bitcoin"⟩]⟩,
   fun _ => none⟩

/-- C7 witness: the catalog built from `envC7w` (fallback fiat leg; live
crypto leg `BTC`) has uppercase, unique codes and a fully covering id
index. -/
theorem catalog_codes_upper_unique_indexed_witness :
    (∀ c ∈ (loadCurrencies envC7w [] []).1, isCanonUpper c.code = true) ∧
    ((loadCurrencies envC7w [] []).1.map Currency.code).Nodup ∧
    (∀ c ∈ (loadCurrencies envC7w [] []).1, c.type = "crypto" →
      (((loadCurrencies envC7w [] []).2).lookup c.code).isSome = true) :=
  catalog_codes_upper_unique_indexed envC7w [] []
    (by
      intro r hr hok
      simp [envC7w] at hr)
    (by
      intro m hm hok
      have hm2 : some (⟨true, [⟨"bitcoin", "btc", "Bitcoin"⟩]⟩ : MarketsResp) = some m := hm
      cases hm2
      decide)
    (by decide)
    (by decide)
    (by decide)

end Conversor



